import Mathlib

/-!
# Verification of the KEGG pathway visualization script (`KEGGAPP.JS`)

This file gives a shallow embedding of the pure computational core of
`KEGGAPP.JS`: the abundance normalizer (`loadJSON`'s bounds computation and
`getHeatmapColor`), the tree builder (`renderJSON` / `createNode` /
`createGeneNode`), and the URL/selection model (`updateKEGGUrl`,
`generateHeatmapKEGGUrl`, `addECToCustomURL`).  DOM manipulation is replaced
by explicit data: HTML containers become inductive tree nodes, the list of
`.ec-color-option` elements becomes a list of selection entries, and the
URL/link/message side effects become a record of the resulting display state.

JavaScript numbers are modelled by `JSNum`: an exact rational together with
the IEEE special values `NaN`, `Infinity` and `-Infinity`.  The claims under
study only exercise arithmetic on small dyadic/integer values where double
precision arithmetic is exact, so exact rational arithmetic is faithful for
them; the NaN/Infinity propagation rules of the JS operators are modelled
explicitly.
-/

/-!
Computable rational arithmetic.  The standard `Rat.add`/`sub`/`mul`/`inv` are
`@[irreducible]`, which blocks `decide`/`rfl` evaluation of concrete runs of
the embedded program, so we define the field operations through `mkRat` and
prove them equal to the standard ones.
-/

/-- Rational addition through `mkRat` (kernel-reducible). -/
def qAdd (a b : ℚ) : ℚ := mkRat (a.num * b.den + b.num * a.den) (a.den * b.den)

/-- Rational subtraction through `mkRat` (kernel-reducible). -/
def qSub (a b : ℚ) : ℚ := mkRat (a.num * b.den - b.num * a.den) (a.den * b.den)

/-- Rational multiplication through `mkRat` (kernel-reducible). -/
def qMul (a b : ℚ) : ℚ := mkRat (a.num * b.num) (a.den * b.den)

/-- Rational division through `mkRat` (kernel-reducible); agrees with `a / b`
for `b ≠ 0` (the embedding only divides after an explicit zero test). -/
def qDiv (a b : ℚ) : ℚ :=
  if b.num < 0 then mkRat (-(a.num * b.den)) (a.den * b.num.natAbs)
  else mkRat (a.num * b.den) (a.den * b.num.natAbs)

/-- Maximum, by a kernel-reducible comparison. -/
def qMax (a b : ℚ) : ℚ := if a < b then b else a

/-- Minimum, by a kernel-reducible comparison. -/
def qMin (a b : ℚ) : ℚ := if a < b then a else b

theorem qAdd_eq (a b : ℚ) : qAdd a b = a + b := by
  have ha : (a.den : ℚ) ≠ 0 := by exact_mod_cast a.den_nz
  have hb : (b.den : ℚ) ≠ 0 := by exact_mod_cast b.den_nz
  conv_rhs => rw [← Rat.num_div_den a, ← Rat.num_div_den b]
  rw [qAdd, Rat.mkRat_eq_div]
  push_cast
  rw [div_add_div _ _ ha hb]
  ring_nf

theorem qSub_eq (a b : ℚ) : qSub a b = a - b := by
  have ha : (a.den : ℚ) ≠ 0 := by exact_mod_cast a.den_nz
  have hb : (b.den : ℚ) ≠ 0 := by exact_mod_cast b.den_nz
  conv_rhs => rw [← Rat.num_div_den a, ← Rat.num_div_den b]
  rw [qSub, Rat.mkRat_eq_div]
  push_cast
  rw [div_sub_div _ _ ha hb]
  ring_nf

theorem qMul_eq (a b : ℚ) : qMul a b = a * b := by
  have ha : (a.den : ℚ) ≠ 0 := by exact_mod_cast a.den_nz
  have hb : (b.den : ℚ) ≠ 0 := by exact_mod_cast b.den_nz
  conv_rhs => rw [← Rat.num_div_den a, ← Rat.num_div_den b]
  rw [qMul, Rat.mkRat_eq_div]
  push_cast
  rw [div_mul_div_comm]

theorem qDiv_eq (a b : ℚ) (h : b ≠ 0) : qDiv a b = a / b := by
  have ha : (a.den : ℚ) ≠ 0 := by exact_mod_cast a.den_nz
  have hb : (b.den : ℚ) ≠ 0 := by exact_mod_cast b.den_nz
  have hbn : b.num ≠ 0 := Rat.num_ne_zero.mpr h
  have hbq : (b.num : ℚ) ≠ 0 := by exact_mod_cast hbn
  conv_rhs => rw [← Rat.num_div_den a, ← Rat.num_div_den b]
  rw [qDiv]
  split
  case isTrue hneg =>
    rw [Rat.mkRat_eq_div]
    push_cast [Int.cast_natAbs]
    rw [abs_of_neg (show (b.num : ℚ) < 0 by exact_mod_cast hneg)]
    field_simp
  case isFalse hpos =>
    rw [Rat.mkRat_eq_div]
    push_cast [Int.cast_natAbs]
    rw [abs_of_nonneg (show (0:ℚ) ≤ (b.num : ℚ) by exact_mod_cast (not_lt.mp hpos))]
    field_simp

theorem qMax_eq (a b : ℚ) : qMax a b = max a b := by
  rw [qMax, max_def]
  rcases lt_trichotomy a b with h | h | h
  · rw [if_pos h, if_pos h.le]
  · subst h
    simp
  · rw [if_neg (not_lt.mpr h.le), if_neg (not_le.mpr h)]

theorem qMin_eq (a b : ℚ) : qMin a b = min a b := by
  rw [qMin, min_def]
  rcases lt_trichotomy a b with h | h | h
  · rw [if_pos h, if_pos h.le]
  · subst h
    simp
  · rw [if_neg (not_lt.mpr h.le), if_neg (not_le.mpr h)]

/-- A JavaScript number: a finite value (exact rational) or one of the IEEE
special values.  The distinction between `+0` and `-0` is not modelled; none
of the code paths under study observe it. -/
inductive JSNum where
  | num (q : ℚ)
  | nan
  | inf
  | ninf
deriving DecidableEq, Repr

/-- A JavaScript value stored in the abundance mapping: a number or a string.
(The abundance document holds gene-id → number entries; the string case keeps
the `typeof v === 'number'` filter in `loadJSON` meaningful.) -/
inductive JSVal where
  | num (x : JSNum)
  | str (s : String)
deriving DecidableEq, Repr

/-- JS truthiness of a number: `0` and `NaN` are falsy, everything else
(including the infinities) is truthy. -/
def jsNumTruthy : JSNum → Bool
  | .num q => decide (q ≠ 0)
  | .nan => false
  | .inf => true
  | .ninf => true

/-- JS truthiness of a value. -/
def jsTruthy : JSVal → Bool
  | .num x => jsNumTruthy x
  | .str s => decide (s ≠ "")

/-- Whitespace for `String.prototype.trim`: the ASCII space characters
(space, tab, newline, carriage return, vertical tab, form feed).  The
Unicode space classes JS also strips never occur in the documents. -/
def jsIsSpace (c : Char) : Bool :=
  c = ' ' || c = '\t' || c = '\n' || c = '\r' || c = Char.ofNat 11 || c = Char.ofNat 12

/-- `String.prototype.trim()`, implemented on the character list (the
built-in `String.trim` does not evaluate inside the kernel). -/
def jsTrim (s : String) : String :=
  String.mk (((s.data.dropWhile jsIsSpace).reverse.dropWhile jsIsSpace).reverse)

/-- Value of a non-empty all-digit character list. -/
def natOfDigits (l : List Char) : Nat :=
  l.foldl (fun n c => 10 * n + (c.toNat - 48)) 0

/-- JS ToNumber on a string, as used implicitly by the arithmetic operators.
A whitespace-only string converts to `0` and an unsigned decimal literal to
its value; the remaining numeric literal forms (signs, fractions, exponents,
hex, `Infinity`) never occur in the abundance document and are mapped to
`NaN`. -/
def strToNumber (s : String) : JSNum :=
  let t := jsTrim s
  if t = "" then .num 0
  else if t.data.all Char.isDigit then .num (natOfDigits t.data)
  else .nan

/-- JS ToNumber of a stored value. -/
def jsToNumber : JSVal → JSNum
  | .num x => x
  | .str s => strToNumber s

/-- JS ToNumber of a property read: an absent property is `undefined`, and
`ToNumber(undefined) = NaN`. -/
def optToNumber : Option JSVal → JSNum
  | none => .nan
  | some v => jsToNumber v

/-- JS truthiness of a property read (absent property = `undefined`, falsy). -/
def optTruthy : Option JSVal → Bool
  | none => false
  | some v => jsTruthy v

/-- JS subtraction with NaN/Infinity propagation. -/
def jsSub : JSNum → JSNum → JSNum
  | .nan, _ => .nan
  | _, .nan => .nan
  | .num a, .num b => .num (qSub a b)
  | .num _, .inf => .ninf
  | .num _, .ninf => .inf
  | .inf, .inf => .nan
  | .inf, _ => .inf
  | .ninf, .ninf => .nan
  | .ninf, _ => .ninf

/-- JS multiplication with NaN/Infinity propagation. -/
def jsMul : JSNum → JSNum → JSNum
  | .nan, _ => .nan
  | _, .nan => .nan
  | .num a, .num b => .num (qMul a b)
  | .num a, .inf => if a > 0 then .inf else if a < 0 then .ninf else .nan
  | .num a, .ninf => if a > 0 then .ninf else if a < 0 then .inf else .nan
  | .inf, .num b => if b > 0 then .inf else if b < 0 then .ninf else .nan
  | .ninf, .num b => if b > 0 then .ninf else if b < 0 then .inf else .nan
  | .inf, .inf => .inf
  | .inf, .ninf => .ninf
  | .ninf, .inf => .ninf
  | .ninf, .ninf => .inf

/-- JS division with NaN/Infinity propagation; `0/0 = NaN`, `x/0 = ±Infinity`
for finite nonzero `x` (the divisor zero coming from `max - min` is `+0`). -/
def jsDiv : JSNum → JSNum → JSNum
  | .nan, _ => .nan
  | _, .nan => .nan
  | .num a, .num b =>
      if b = 0 then (if a = 0 then .nan else if a > 0 then .inf else .ninf)
      else .num (qDiv a b)
  | .num _, .inf => .num 0
  | .num _, .ninf => .num 0
  | .inf, .num b => if b < 0 then .ninf else .inf
  | .ninf, .num b => if b < 0 then .inf else .ninf
  | .inf, _ => .nan
  | .ninf, _ => .nan

/-- `Math.round`: round half toward positive infinity; NaN and the
infinities pass through. -/
def jsRound : JSNum → JSNum
  | .num q => .num ((Rat.floor (qAdd q (mkRat 1 2)) : ℤ) : ℚ)
  | x => x

/-- Binary maximum of two JS numbers (helper for `Math.max`). -/
def jsMax2 : JSNum → JSNum → JSNum
  | .nan, _ => .nan
  | _, .nan => .nan
  | .ninf, y => y
  | x, .ninf => x
  | .inf, _ => .inf
  | _, .inf => .inf
  | .num a, .num b => .num (qMax a b)

/-- Binary minimum of two JS numbers (helper for `Math.min`). -/
def jsMin2 : JSNum → JSNum → JSNum
  | .nan, _ => .nan
  | _, .nan => .nan
  | .inf, y => y
  | x, .inf => x
  | .ninf, _ => .ninf
  | _, .ninf => .ninf
  | .num a, .num b => .num (qMin a b)

/-- `Math.max(...l)`: `-Infinity` on the empty list, `NaN` if any argument is
`NaN`, otherwise the maximum. -/
def jsMathMax (l : List JSNum) : JSNum :=
  if l.contains .nan then .nan else l.foldl jsMax2 .ninf

/-- `Math.min(...l)`: `Infinity` on the empty list, `NaN` if any argument is
`NaN`, otherwise the minimum. -/
def jsMathMin (l : List JSNum) : JSNum :=
  if l.contains .nan then .nan else l.foldl jsMin2 .inf

/-- The abundance mapping `abundanceData`, a JS object modelled as an ordered
association list of its own properties (JS objects have unique keys; the
parsed JSON honours this). -/
def AbunMap : Type := List (String × JSVal)

/-- Property read `m[k]`: the value of the first binding of `k`, or
`undefined` (`none`). -/
def jsLookup : List (String × JSVal) → String → Option JSVal
  | [], _ => none
  | (k', v') :: rest, k => if k' = k then some v' else jsLookup rest k

/-- Property write `m[k] = v`: overwrite the existing binding in place, or
append a new one. -/
def jsSetKey : List (String × JSVal) → String → JSVal → List (String × JSVal)
  | [], k, v => [(k, v)]
  | (k', v') :: rest, k, v =>
      if k' = k then (k, v) :: rest else (k', v') :: jsSetKey rest k v

/-- The numeric values of the mapping, in order: models
`Object.values(abundanceData).filter(v => typeof v === 'number')`
(`NaN` and the infinities also have `typeof` `'number'`). -/
def numsOf (raw : List (String × JSVal)) : List JSNum :=
  (raw.map (·.2)).filterMap (fun v =>
    match v with
    | .num x => some x
    | .str _ => none)

/-- The abundance-loading step of `loadJSON` (lines 84–87): starting from the
parsed `kegg_categories` object, compute the numeric values once, then assign
`abundanceData._max` and `abundanceData._min` on the same object. -/
def processAbundance (raw : List (String × JSVal)) : AbunMap :=
  let nums := numsOf raw
  jsSetKey (jsSetKey raw "_max" (.num (jsMathMax nums))) "_min" (.num (jsMathMin nums))

/-- Hex digit in lowercase, as produced by `Number.prototype.toString(16)`. -/
def jsNumToString16 : JSNum → String
  | .nan => "NaN"
  | .inf => "Infinity"
  | .ninf => "-Infinity"
  | .num q =>
      -- reached only on integral values (outputs of `Math.round`); the
      -- fractional hex expansion of a non-integral double is not modelled
      let i := Rat.floor q
      if i < 0 then "-" ++ String.mk (Nat.toDigits 16 i.natAbs)
      else String.mk (Nat.toDigits 16 i.toNat)

/-- `String.prototype.toUpperCase()` on the ASCII strings produced here
(character-wise uppercasing). -/
def jsToUpper (s : String) : String := String.mk (s.data.map Char.toUpper)

/-- `String.prototype.padStart(2, '0')`. -/
def padStart2 (s : String) : String :=
  if s.length < 2 then String.mk (List.replicate (2 - s.length) '0') ++ s else s

/-- `getHeatmapColor` (lines 297–304): returns `'#FFFFFF'` when
`abundanceData[kNumber]` is falsy (absent, `0` or `NaN`), otherwise maps the
normalized ratio to a red–blue gradient and uppercases the template. -/
def getHeatmapColor (abun : AbunMap) (kNumber : String) : String :=
  if !optTruthy (jsLookup abun kNumber) then "#FFFFFF"
  else
    let t := jsDiv
      (jsSub (optToNumber (jsLookup abun kNumber)) (optToNumber (jsLookup abun "_min")))
      (jsSub (optToNumber (jsLookup abun "_max")) (optToNumber (jsLookup abun "_min")))
    let r := jsRound (jsMul t (.num 255))
    let b := jsRound (jsMul (jsSub (.num 1) t) (.num 255))
    jsToUpper ("#" ++ padStart2 (jsNumToString16 r) ++ "00" ++ padStart2 (jsNumToString16 b))

/-!
## Tree Builder (`renderJSON`, `createNode`, `createGeneNode`)

The DOM tree is replaced by `TreeNode`; a JS exception (calling `.trim()` on
a non-string) is modelled by `Except JSErr`.
-/

/-- A JS exception raised by the embedded code. -/
inductive JSErr where
  | typeError
deriving DecidableEq, Repr

/-- A value sitting inside a gene-entry mapping (an element of a
pathway-list array).  The tree builder only ever calls `.trim()` on these, so
the model distinguishes strings from everything else: any non-string value
(number, boolean, object, array, null) has no `trim` method and raising
`TypeError` is the only behaviour it can produce here. -/
inductive GeneVal where
  | gstr (s : String)
  | gother
deriving DecidableEq, Repr

/-- A raw node of the pathway document: a scalar (string, or a non-string
scalar carried together with its JS `String(...)` rendering), a plain object,
or an array of gene-entry mappings.  Parsed JSON contains no `undefined`, and
the arrays in the document hold objects (modelled as association lists). -/
inductive RawVal where
  | str (s : String)
  | numScalar (s : String)
  | obj (entries : List (String × RawVal))
  | arr (elems : List (List (String × GeneVal)))

/-- An emitted tree node (the data content of the DOM nodes built by
`createNode`/`createGeneNode`; the nesting `level` only sets a CSS margin and
is not part of the data). -/
inductive TreeNode where
  | category (label : String) (children : List TreeNode)
  | pathway (label : String) (pathwayId : Option String) (children : List TreeNode)
  | gene (identifier description color : String)
  | leaf (label value : String)
deriving Repr

/-- `v.trim()` on a gene-entry value: trims a string, throws on anything
else. -/
def jsTrimValue : GeneVal → Except JSErr String
  | .gstr s => .ok (jsTrim s)
  | .gother => .error .typeError

/-- `entries.some(([k, v]) => k.trim() && v.trim())` with JS evaluation
order: `&&` short-circuits, so `v.trim()` (which may throw) is only reached
when the trimmed key is non-empty, and `some` stops at the first truthy
result. -/
def geneEntrySomeM : List (String × GeneVal) → Except JSErr Bool
  | [] => .ok false
  | (k, v) :: rest =>
      if jsTrim k ≠ "" then do
        let t ← jsTrimValue v
        if t ≠ "" then .ok true else geneEntrySomeM rest
      else geneEntrySomeM rest

/-- The filter predicate for one array entry (lines 201–205):
`entries.length > 0 && entries.some(...)`. -/
def entryPredM (e : List (String × GeneVal)) : Except JSErr Bool :=
  if e.isEmpty then .ok false else geneEntrySomeM e

/-- `value.filter(entry => ...)` with a predicate that may throw: entries are
scanned in order and the first exception propagates. -/
def filterEntriesM : List (List (String × GeneVal)) → Except JSErr (List (List (String × GeneVal)))
  | [] => .ok []
  | e :: rest => do
      let b ← entryPredM e
      let rest' ← filterEntriesM rest
      .ok (if b then e :: rest' else rest')

/-- `createGeneNode` (lines 114–153): trims the description, bails out on an
empty one, and colors the node by the truthiness-gated heatmap lookup
(line 125). -/
def createGeneNode (abun : AbunMap) (kNumber description : String) : Option TreeNode :=
  let cleanedDesc := jsTrim description
  if cleanedDesc = "" then none
  else
    let color := if optTruthy (jsLookup abun kNumber) then getHeatmapColor abun kNumber else "#FFFFFF"
    some (.gene kNumber cleanedDesc color)

/-- The gene loop over one surviving entry (lines 250–256): every value is
trimmed (throwing on a non-string), blank descriptions are skipped, and the
gene nodes are appended in order. -/
def geneRowM (abun : AbunMap) : List (String × GeneVal) → Except JSErr (List TreeNode)
  | [] => .ok []
  | (kNumber, v) :: rest => do
      let description ← (match v with
        | .gstr s => Except.ok s
        | .gother => Except.error JSErr.typeError)
      if jsTrim description = "" then geneRowM abun rest
      else
        match createGeneNode abun kNumber description with
        | some g => do
            let more ← geneRowM abun rest
            .ok (g :: more)
        | none => geneRowM abun rest

/-- `filteredValue.forEach(entry => ...)`: concatenate the gene nodes of the
surviving entries. -/
def genesOfM (abun : AbunMap) : List (List (String × GeneVal)) → Except JSErr (List TreeNode)
  | [] => .ok []
  | entry :: rest => do
      let gs ← geneRowM abun entry
      let more ← genesOfM abun rest
      .ok (gs ++ more)

/-- Longest leading run of ASCII digits. -/
def takeDigits : List Char → List Char × List Char
  | [] => ([], [])
  | c :: rest =>
      if c.isDigit then
        let p := takeDigits rest
        (c :: p.1, p.2)
      else ([], c :: rest)

/-- Try to match the regex `\[PATH:(ko\d+)\]` at the head of the character
list, returning the digit part of the captured group. -/
def matchPathAt (l : List Char) : Option String :=
  if l.take 8 = "[PATH:ko".data then
    let p := takeDigits (l.drop 8)
    if p.1 ≠ [] ∧ p.2.head? = some ']' then some (String.mk p.1) else none
  else none

/-- First match of `\[PATH:(ko\d+)\]` in the string (the regex scan of
line 220), as the digit string of the captured group. -/
def findPathKo : List Char → Option String
  | [] => none
  | c :: rest =>
      match matchPathAt (c :: rest) with
      | some d => some d
      | none => findPathKo rest

theorem sizeOf_filter_le {α : Type} [SizeOf α] (p : α → Bool) (l : List α) :
    sizeOf (l.filter p) ≤ sizeOf l := by
  induction l with
  | nil => simp [List.filter]
  | cons a t ih =>
      simp only [List.filter]
      cases p a <;> simp only [] <;> simp_arith <;> omega

mutual
/-- `createNode` (lines 162–275).  Classify the value by shape:
* object (and not array): filter the entries to those with a non-blank key
  (parsed JSON has no `undefined` values, so `v !== undefined` always holds),
  prune when that pre-recursion list is empty, otherwise recurse and keep the
  non-null children — note the node itself is kept even if every child
  recursion returns null;
* array: filter the gene entries (which may throw), prune when none survive,
  otherwise extract the pathway id from the label and emit the gene children;
* scalar: prune when the trimmed string form is empty, otherwise a leaf.
A blank trimmed key prunes in every case. -/
def createNode (abun : AbunMap) (key : String) (value : RawVal) : Except JSErr (Option TreeNode) :=
  let cleanedKey := jsTrim key
  if cleanedKey = "" then .ok none
  else
    match value with
    | .obj es =>
        let entries := es.filter (fun p => decide (jsTrim p.1 ≠ ""))
        if entries.isEmpty then .ok none
        else do
          let children ← createChildren abun entries
          .ok (some (.category cleanedKey children))
    | .arr elems => do
        let filteredValue ← filterEntriesM elems
        if filteredValue.isEmpty then .ok none
        else do
          let pathwayId := (findPathKo cleanedKey.data).map (fun d => "map" ++ d)
          let children ← genesOfM abun filteredValue
          .ok (some (.pathway cleanedKey pathwayId children))
    | .str s =>
        let cleanedValue := jsTrim s
        if cleanedValue = "" then .ok none
        else .ok (some (.leaf cleanedKey cleanedValue))
    | .numScalar s =>
        let cleanedValue := jsTrim s
        if cleanedValue = "" then .ok none
        else .ok (some (.leaf cleanedKey cleanedValue))
termination_by sizeOf value
decreasing_by
  · have h := sizeOf_filter_le (fun p => decide (jsTrim p.1 ≠ "")) es
    simp only [RawVal.obj.sizeOf_spec]
    omega

/-- The recursion of the object branch (lines 186–189): build each child and
append it only when non-null. -/
def createChildren (abun : AbunMap) : List (String × RawVal) → Except JSErr (List TreeNode)
  | [] => .ok []
  | (k, v) :: rest => do
      let c ← createNode abun k v
      let cs ← createChildren abun rest
      .ok (match c with
           | some n => n :: cs
           | none => cs)
termination_by l => sizeOf l
end

/-- The three top-level category labels dropped before rendering
(lines 279–283). -/
def keyDenylist : List String :=
  ["09180 Brite Hierarchies",
   "09190 Not Included in Pathway or Brite",
   "09112 Not included in regular maps"]

/-- The top-level pass of `renderJSON` (lines 278–287): drop denylisted and
blank-key entries, then build each node and keep the non-null ones (the same
collection step as the object branch). -/
def renderJSON (abun : AbunMap) (data : List (String × RawVal)) : Except JSErr (List TreeNode) :=
  createChildren abun (data.filter (fun p => !(decide (p.1 ∈ keyDenylist)) && decide (jsTrim p.1 ≠ "")))

/-!
## URL / Selection model (`updateKEGGUrl`, `generateHeatmapKEGGUrl`,
`addECToCustomURL`)

The list of `.ec-color-option` DOM elements becomes a list of
`SelectionEntry`; the URL field, link element and transient message become
explicit result data.
-/

/-- A character `encodeURIComponent` leaves unescaped:
`A–Z a–z 0–9 - _ . ! ~ * ' ( )`. -/
def isUnreservedChar (c : Char) : Bool :=
  c.isAlpha || c.isDigit || c = '-' || c = '_' || c = '.' || c = '!' ||
    c = '~' || c = '*' || c = Char.ofNat 39 || c = '(' || c = ')'

/-- UTF-8 bytes of a Unicode scalar value. -/
def utf8Bytes (c : Char) : List Nat :=
  let n := c.toNat
  if n < 128 then [n]
  else if n < 2048 then [192 + n / 64, 128 + n % 64]
  else if n < 65536 then [224 + n / 4096, 128 + (n / 64) % 64, 128 + n % 64]
  else [240 + n / 262144, 128 + (n / 4096) % 64, 128 + (n / 64) % 64, 128 + n % 64]

/-- Uppercase hex digit. -/
def hexDigitUpper (n : Nat) : Char :=
  if n < 10 then Char.ofNat (48 + n) else Char.ofNat (55 + n)

/-- A percent-escape `%XX` for one byte. -/
def byteToHexPercent (b : Nat) : String :=
  String.mk ['%', hexDigitUpper (b / 16), hexDigitUpper (b % 16)]

/-- `encodeURIComponent` on one character. -/
def encodeChar (c : Char) : String :=
  if isUnreservedChar c then String.mk [c]
  else String.join ((utf8Bytes c).map byteToHexPercent)

/-- `encodeURIComponent` over a character list. -/
def encodeChars : List Char → String
  | [] => ""
  | c :: cs => encodeChar c ++ encodeChars cs

/-- JS `encodeURIComponent`. -/
def encodeURIComponent (s : String) : String := encodeChars s.data

/-- One `.ec-color-option` row of the customization panel. -/
structure SelectionEntry where
  identifier : String
  backgroundColor : String
  foregroundColor : String
deriving DecidableEq, Repr

/-- The URL text field and link element state. -/
structure UrlDisplay where
  url : String
  linkVisible : Bool
deriving DecidableEq, Repr

/-- Result of one `updateKEGGUrl` run: the new display state and the
transient message shown, if any. -/
structure UpdateResult where
  display : UrlDisplay
  message : Option String
deriving DecidableEq, Repr

/-- The pathway-id test `/^map\d{5}$/` (line 326). -/
def isValidMapId (s : String) : Bool :=
  match s.data with
  | 'm' :: 'a' :: 'p' :: rest => decide (rest.length = 5) && rest.all Char.isDigit
  | _ => false

/-- `value.replace("#", "%23")`: JS `replace` with a string pattern
replaces only the first occurrence. -/
def replaceFirstHashAux : List Char → List Char
  | [] => []
  | c :: rest => if c = '#' then '%' :: '2' :: '3' :: rest else c :: replaceFirstHashAux rest

/-- `value.replace("#", "%23")` on a string. -/
def replaceFirstHash (s : String) : String := String.mk (replaceFirstHashAux s.data)

/-- `Array.prototype.join(sep)`. -/
def joinSep (sep : String) : List String → String
  | [] => ""
  | x :: rest => rest.foldl (fun acc y => acc ++ sep ++ y) x

/-- The fixed KEGG endpoint prefix. -/
def keggBase : String := "https://www.kegg.jp/kegg-bin/show_pathway?"

/-- One query part (lines 343–348): encoded trimmed identifier, the `%09`
tab marker, then background and foreground with `#` rewritten to `%23`,
comma-joined. -/
def querySegment (e : SelectionEntry) : String :=
  encodeURIComponent (jsTrim e.identifier) ++ "%09" ++
    replaceFirstHash e.backgroundColor ++ "," ++ replaceFirstHash e.foregroundColor

/-- The URL assembled by `updateKEGGUrl` (lines 351–352). -/
def buildKeggUrl (mapId : String) (entries : List SelectionEntry) : String :=
  keggBase ++ mapId ++ "/" ++ joinSep "/" (entries.map querySegment) ++ "/default%3d%23FFFFFF"

/-- Message shown for a malformed non-empty pathway id (line 327). -/
def invalidPathwayMsg : String := "Invalid pathway ID. Must be in format map00000"

/-- Message shown when no K number rows exist (line 338). -/
def emptySelectionMsg : String := "Please add at least one K number"

/-- `updateKEGGUrl` (lines 322–359): trim the pathway input; on a malformed
id clear the URL and hide the link, surfacing the error only when the
trimmed input is non-empty; on an empty selection keep the previous display
and surface a message; otherwise publish the assembled URL. -/
def updateKEGGUrl (prev : UrlDisplay) (pathwayValue : String) (entries : List SelectionEntry) :
    UpdateResult :=
  let mapId := jsTrim pathwayValue
  if !isValidMapId mapId then
    { display := { url := "", linkVisible := false },
      message := if mapId ≠ "" then some invalidPathwayMsg else none }
  else if entries.isEmpty then
    { display := prev, message := some emptySelectionMsg }
  else
    { display := { url := buildKeggUrl mapId entries, linkVisible := true }, message := none }

/-- `generateHeatmapKEGGUrl` (lines 312–317): the identifier is inserted
verbatim, only the heatmap color is percent-encoded, one color per
identifier. -/
def generateHeatmapKEGGUrl (abun : AbunMap) (mapId : String) (kNumbers : List String) : String :=
  let dataset := joinSep "/" (kNumbers.map (fun k => k ++ "%09" ++ encodeURIComponent (getHeatmapColor abun k)))
  keggBase ++ mapId ++ "/" ++ dataset ++ "/default%3d%23FFFFFF"

/-- `addECToCustomURL` (lines 437–464): a no-op when an entry with the same
identifier exists, otherwise append a new row at the end. -/
def addECToCustomURL (sel : List SelectionEntry) (kNumber bgColor fgColor : String) :
    List SelectionEntry :=
  if sel.any (fun e => decide (e.identifier = kNumber)) then sel
  else sel ++ [{ identifier := kNumber, backgroundColor := bgColor, foregroundColor := fgColor }]

/-- `addECToCustomURL` with its default colors (`bgColor = '#FF0000'`,
`fgColor = '#FFFFFF'`). -/
def addECToCustomURLDefault (sel : List SelectionEntry) (kNumber : String) : List SelectionEntry :=
  addECToCustomURL sel kNumber "#FF0000" "#FFFFFF"

/-!
## Spec-side reference definitions and observation helpers
-/

/-- Two-digit uppercase hex of a byte value. -/
def byteHex (n : Nat) : String := String.mk [hexDigitUpper (n / 16), hexDigitUpper (n % 16)]

/-- The spec's `colorFor` (§4.1), written from the spec's words for
comparison with the source's `getHeatmapColor`: explicit presence check
(absent ⇒ `#FFFFFF`), `ratio = 0` fallback when `max = min`, red channel
`round(ratio·255)`, green `0`, blue `round((1−ratio)·255)`, uppercase
`#RRGGBB`.  The index is the plain gene-id → score mapping (scores are
numbers; bounds are taken over all values). -/
def specColorFor (index : List (String × ℚ)) (id : String) : String :=
  match index.find? (fun p => decide (p.1 = id)) with
  | none => "#FFFFFF"
  | some p =>
      let vals := index.map (·.2)
      let mx := vals.foldl qMax p.2
      let mn := vals.foldl qMin p.2
      let ratio := if mx = mn then 0 else qDiv (qSub p.2 mn) (qSub mx mn)
      let r := (Rat.floor (qAdd (qMul ratio 255) (mkRat 1 2))).toNat
      let b := (Rat.floor (qAdd (qMul (qSub 1 ratio) 255) (mkRat 1 2))).toNat
  "#" ++ byteHex r ++ "00" ++ byteHex b

/-- The heatmap URL grammar as the spec states it (§4.3 `buildHeatmapUrl`
and §6: "Each identifier/color pair segment is percent-encoded"): identifier
and color both percent-encoded, one color per identifier. -/
def specHeatmapUrl (abun : AbunMap) (mapId : String) (kNumbers : List String) : String :=
  keggBase ++ mapId ++ "/" ++
    joinSep "/" (kNumbers.map (fun k =>
      encodeURIComponent k ++ "%09" ++ encodeURIComponent (getHeatmapColor abun k))) ++
    "/default%3d%23FFFFFF"

/-- The red channel of a `#RRGGBB` string, reading the two characters after
`#` as hex. -/
def hexVal (c : Char) : Option Nat :=
  if c.isDigit then some (c.toNat - 48)
  else if 'A' ≤ c ∧ c ≤ 'F' then some (c.toNat - 55)
  else if 'a' ≤ c ∧ c ≤ 'f' then some (c.toNat - 87)
  else none

/-- Red channel value of a hex color string. -/
def redChannel (s : String) : Option Nat :=
  match s.data with
  | _ :: a :: b :: _ => do
      let x ← hexVal a
      let y ← hexVal b
      some (16 * x + y)
  | _ => none

/-- Blue channel value of a `#RRGGBB` hex color string. -/
def blueChannel (s : String) : Option Nat :=
  match s.data with
  | _ :: _ :: _ :: _ :: _ :: a :: b :: _ => do
      let x ← hexVal a
      let y ← hexVal b
      some (16 * x + y)
  | _ => none

mutual
/-- A node (together with all its descendants) has non-empty displayable
content: labels, descriptions and leaf values are non-empty.  (All stored
labels are already trimmed by construction.) -/
def goodNode : TreeNode → Bool
  | .category l cs => decide (l ≠ "") && goodList cs
  | .pathway l _ cs => decide (l ≠ "") && goodList cs
  | .gene _ d _ => decide (d ≠ "")
  | .leaf l v => decide (l ≠ "") && decide (v ≠ "")
def goodList : List TreeNode → Bool
  | [] => true
  | n :: rest => goodNode n && goodList rest
end

theorem jsLookup_setKey_self (m : List (String × JSVal)) (k : String) (v : JSVal) :
    jsLookup (jsSetKey m k v) k = some v := by
  induction m with
  | nil => simp [jsSetKey, jsLookup]
  | cons p rest ih =>
      obtain ⟨k', v'⟩ := p
      by_cases h : k' = k
      · subst h
        simp [jsSetKey, jsLookup]
      · simp [jsSetKey, jsLookup, h, ih]

theorem jsLookup_setKey_ne (m : List (String × JSVal)) (k k' : String) (v : JSVal)
    (h : k ≠ k') : jsLookup (jsSetKey m k v) k' = jsLookup m k' := by
  induction m with
  | nil => simp [jsSetKey, jsLookup, h]
  | cons p rest ih =>
      obtain ⟨ka, va⟩ := p
      by_cases hk : ka = k
      · subst hk
        simp [jsSetKey, jsLookup, h]
      · simp [jsSetKey, jsLookup, hk, ih]

/-!
## Claims
-/

/-- C9: computing the abundance bounds mutates the abundance index itself —
after `loadJSON`, `_max` and `_min` are keys of the same gene-identifier
mapping holding `Math.max`/`Math.min` of the numeric values, every later
lookup treats them like gene identifiers (`colorFor '_max'` turns the stored
maximum into a gene score: ratio 1, color `#FF0000`), and for an empty
numeric index they hold `-Infinity` and `Infinity` rather than being
undefined. -/
theorem claim9_bounds_mutate_index :
    (∀ raw : List (String × JSVal),
        jsLookup (processAbundance raw) "_max" = some (.num (jsMathMax (numsOf raw))) ∧
        jsLookup (processAbundance raw) "_min" = some (.num (jsMathMin (numsOf raw)))) ∧
    (jsLookup (processAbundance []) "_max" = some (.num .ninf) ∧
     jsLookup (processAbundance []) "_min" = some (.num .inf)) ∧
    getHeatmapColor (processAbundance [("g", .num (.num 1)), ("h", .num (.num 3))]) "_max" = "#FF0000" := by
  refine ⟨fun raw => ⟨?_, ?_⟩, ⟨by decide, by decide⟩, by decide⟩
  · rw [processAbundance, jsLookup_setKey_ne _ _ _ _ (by decide), jsLookup_setKey_self]
  · rw [processAbundance, jsLookup_setKey_self]

/-- C2: the claim says a present identifier with score `0` gets the gradient
color; the code gates on the truthiness of `abundanceData[kNumber]`
(lines 125 and 298), so a stored score of `0` is treated exactly like an
absent identifier and yields `#FFFFFF`, while the spec's `colorFor`
(presence check) yields the gradient color `#5500AA` for the same index. -/
theorem claim2_zero_score_treated_absent :
    (∀ abun id, optTruthy (jsLookup abun id) = false → getHeatmapColor abun id = "#FFFFFF") ∧
    jsLookup (processAbundance [("g1", .num (.num (-1))), ("g0", .num (.num 0)), ("g2", .num (.num 2))]) "g0"
      = some (.num (.num 0)) ∧
    getHeatmapColor (processAbundance [("g1", .num (.num (-1))), ("g0", .num (.num 0)), ("g2", .num (.num 2))]) "g0"
      = "#FFFFFF" ∧
    specColorFor [("g1", -1), ("g0", 0), ("g2", 2)] "g0" = "#5500AA" ∧
    decide (("#FFFFFF" : String) = "#5500AA") = false := by
  refine ⟨fun abun id h => ?_, by decide, by decide, by decide, by decide⟩
  rw [getHeatmapColor, h]
  rfl

/-- C2 witness: the truthiness gate of the theorem applied at a concrete
absent identifier. -/
theorem claim2_zero_score_treated_absent_witness :
    getHeatmapColor (processAbundance [("x", .num (.num 7))]) "y" = "#FFFFFF" :=
  claim2_zero_score_treated_absent.1 _ "y" (by decide)

/-- C3 counterexample: for the single-entry index `{a: 5}` (`max == min`),
`getHeatmapColor` computes the ratio `0/0 = NaN`, `NaN` propagates through
both channels and the result is the string `#NAN00NAN` — not the valid hex
`#0000FF` (red 0, blue 255) the claim mandates. -/
theorem claim3_counterexample :
    getHeatmapColor (processAbundance [("a", .num (.num 5))]) "a" = "#NAN00NAN" ∧
    decide (("#NAN00NAN" : String) = "#0000FF") = false := by
  exact ⟨by decide, by decide⟩

/-- C3 amended: when the index holds a single distinct numeric value `q`
(so `_max = _min = q`) and a present identifier carries that (truthy,
nonzero) value, `getHeatmapColor` deterministically returns the string
`#NAN00NAN`: the `0/0` ratio is `NaN` and both channels print as `NaN`;
the spec's `ratio = 0` fallback (`#0000FF`) is not implemented. -/
theorem claim3_amended (abun : AbunMap) (id : String) (q : ℚ)
    (hid : jsLookup abun id = some (.num (.num q))) (hq : q ≠ 0)
    (hmax : jsLookup abun "_max" = some (.num (.num q)))
    (hmin : jsLookup abun "_min" = some (.num (.num q))) :
    getHeatmapColor abun id = "#NAN00NAN" := by
  have hsub : qSub q q = 0 := by rw [qSub_eq]; ring
  have ht : optTruthy (some (JSVal.num (JSNum.num q))) = true := by
    simp [optTruthy, jsTruthy, jsNumTruthy, hq]
  rw [getHeatmapColor, hid, hmax, hmin, ht]
  rw [if_neg (by simp)]
  simp only [optToNumber, jsToNumber, jsSub]
  rw [hsub]
  rfl

/-- C3 witness: the amended theorem at the concrete index `{a: 5}`. -/
theorem claim3_amended_witness :
    getHeatmapColor (processAbundance [("a", .num (.num 5))]) "a" = "#NAN00NAN" :=
  claim3_amended _ "a" 5 (by decide) (by decide) (by decide) (by decide)

/-- C6: monotonicity of the heatmap color fails on the code.  In the index
`{a: -2, b: 0, d: 1, c: 2}` the identifiers `b` and `d` carry scores
`0 < 1`, but the truthiness gate sends the zero score to `#FFFFFF`
(red channel `255`) while `d` gets the gradient color `#BF0040`
(red channel `191`), so `red(colorFor b) ≤ red(colorFor d)` fails; the blue
relationship is violated as well (`255` versus `64`, but equality would be
required to invert `255`). -/
theorem claim6_monotonicity_fails :
    jsLookup (processAbundance [("a", .num (.num (-2))), ("b", .num (.num 0)), ("d", .num (.num 1)), ("c", .num (.num 2))]) "b"
      = some (.num (.num 0)) ∧
    jsLookup (processAbundance [("a", .num (.num (-2))), ("b", .num (.num 0)), ("d", .num (.num 1)), ("c", .num (.num 2))]) "d"
      = some (.num (.num 1)) ∧
    ((0 : ℚ) < 1) ∧
    getHeatmapColor (processAbundance [("a", .num (.num (-2))), ("b", .num (.num 0)), ("d", .num (.num 1)), ("c", .num (.num 2))]) "b"
      = "#FFFFFF" ∧
    getHeatmapColor (processAbundance [("a", .num (.num (-2))), ("b", .num (.num 0)), ("d", .num (.num 1)), ("c", .num (.num 2))]) "d"
      = "#BF0040" ∧
    redChannel "#FFFFFF" = some 255 ∧
    redChannel "#BF0040" = some 191 ∧
    191 < 255 ∧
    blueChannel "#FFFFFF" = some 255 ∧
    blueChannel "#BF0040" = some 64 := by
  refine ⟨by decide, by decide, by norm_num, by decide, by decide, by decide, by decide,
    by norm_num, by decide, by decide⟩

/-- C7: `addECToCustomURL` is idempotent and order-preserving: adding an
identifier already present is a no-op (two adds of the same identifier leave
exactly one matching entry), a new identifier is appended at the end with the
default colors `#FF0000`/`#FFFFFF`, and uniqueness of identifiers is
preserved. -/
theorem claim7_addEntry_idempotent :
    (∀ (sel : List SelectionEntry) (k bg fg bg2 fg2 : String),
        addECToCustomURL (addECToCustomURL sel k bg fg) k bg2 fg2 = addECToCustomURL sel k bg fg) ∧
    (∀ (sel : List SelectionEntry) (k : String),
        sel.countP (fun e => decide (e.identifier = k)) = 0 →
        (addECToCustomURLDefault (addECToCustomURLDefault sel k) k).countP
          (fun e => decide (e.identifier = k)) = 1) ∧
    (∀ (sel : List SelectionEntry) (k : String),
        (∀ e ∈ sel, e.identifier ≠ k) →
        addECToCustomURLDefault sel k =
          sel ++ [{ identifier := k, backgroundColor := "#FF0000", foregroundColor := "#FFFFFF" }]) ∧
    (∀ (sel : List SelectionEntry) (k bg fg : String),
        (sel.map SelectionEntry.identifier).Nodup →
        ((addECToCustomURL sel k bg fg).map SelectionEntry.identifier).Nodup) := by
  have happend : ∀ (sel : List SelectionEntry) (k bg fg bg2 fg2 : String),
      addECToCustomURL (sel ++ [{ identifier := k, backgroundColor := bg, foregroundColor := fg }])
        k bg2 fg2 =
      sel ++ [{ identifier := k, backgroundColor := bg, foregroundColor := fg }] := by
    intro sel k bg fg bg2 fg2
    rw [addECToCustomURL, if_pos]
    simp [List.any_append]
  refine ⟨?_, ?_, ?_, ?_⟩
  · intro sel k bg fg bg2 fg2
    by_cases h : sel.any (fun e => decide (e.identifier = k)) = true
    · have h1 : addECToCustomURL sel k bg fg = sel := by rw [addECToCustomURL, if_pos h]
      rw [h1, addECToCustomURL, if_pos h]
    · have h1 : addECToCustomURL sel k bg fg =
          sel ++ [{ identifier := k, backgroundColor := bg, foregroundColor := fg }] := by
        rw [addECToCustomURL, if_neg h]
      rw [h1, happend]
  · intro sel k h
    have hall : ∀ e ∈ sel, ¬(e.identifier = k) := by
      intro e he
      have := List.countP_eq_zero.mp h e he
      simpa using this
    have hne : ¬(sel.any (fun e => decide (e.identifier = k)) = true) := by
      simp only [List.any_eq_true, not_exists]
      intro e
      by_cases he : e ∈ sel
      · simp [hall e he]
      · simp [he]
    have h1 : addECToCustomURLDefault sel k =
        sel ++ [{ identifier := k, backgroundColor := "#FF0000", foregroundColor := "#FFFFFF" }] := by
      rw [addECToCustomURLDefault, addECToCustomURL, if_neg hne]
    rw [addECToCustomURLDefault, h1, happend, List.countP_append, h]
    simp [List.countP_cons]
  · intro sel k h
    have hne : ¬(sel.any (fun e => decide (e.identifier = k)) = true) := by
      simp only [List.any_eq_true, not_exists]
      intro e
      by_cases he : e ∈ sel
      · simp [h e he]
      · simp [he]
    rw [addECToCustomURLDefault, addECToCustomURL, if_neg hne]
  · intro sel k bg fg h
    by_cases hany : sel.any (fun e => decide (e.identifier = k)) = true
    · rw [addECToCustomURL, if_pos hany]
      exact h
    · rw [addECToCustomURL, if_neg hany]
      rw [List.map_append, List.nodup_append]
      refine ⟨h, by simp, ?_⟩
      intro x hx hy
      simp only [List.map_cons, List.map_nil, List.mem_singleton] at hy
      obtain ⟨e, he, hid⟩ := List.mem_map.mp hx
      exact hany (List.any_eq_true.mpr ⟨e, he, by simp [hid, hy]⟩)

/-- C7 witness: two adds of `K00001` to the empty selection leave exactly
one matching entry, appended with the default colors. -/
theorem claim7_addEntry_idempotent_witness :
    (addECToCustomURLDefault (addECToCustomURLDefault [] "K00001") "K00001").countP
      (fun e => decide (e.identifier = "K00001")) = 1 ∧
    addECToCustomURLDefault [] "K00001" =
      [{ identifier := "K00001", backgroundColor := "#FF0000", foregroundColor := "#FFFFFF" }] :=
  ⟨claim7_addEntry_idempotent.2.1 [] "K00001" (by decide),
   claim7_addEntry_idempotent.2.2.1 [] "K00001" (by intro e he; simp at he)⟩

/-- A hex digit character (either case). -/
def hexDigitChar (c : Char) : Bool :=
  decide (c ∈ ['0','1','2','3','4','A','B','C','D','E','F',
               '5','6','7','8','9','a','b','c','d','e','f'])

/-- `s` is a `#`-prefixed hex color literal (as produced by color pickers
and the default constants). -/
def isHexColor (s : String) : Prop :=
  ∃ t : List Char, s.data = '#' :: t ∧ t.all hexDigitChar = true

theorem hexDigitChar_unreserved {c : Char} (h : hexDigitChar c = true) :
    isUnreservedChar c = true := by
  have h' : c ∈ ['0','1','2','3','4','A','B','C','D','E','F',
                 '5','6','7','8','9','a','b','c','d','e','f'] := by
    simpa [hexDigitChar] using h
  fin_cases h' <;> decide

theorem encodeChars_unreserved :
    ∀ (l : List Char), l.all isUnreservedChar = true → encodeChars l = String.mk l
  | [], _ => rfl
  | c :: cs, h => by
      simp only [List.all_cons, Bool.and_eq_true] at h
      rw [encodeChars, encodeChar, if_pos h.1, encodeChars_unreserved cs h.2]
      rfl

theorem encodeURIComponent_unreserved {s : String} (h : s.data.all isUnreservedChar = true) :
    encodeURIComponent s = s := by
  rw [encodeURIComponent, encodeChars_unreserved _ h]

theorem replaceFirstHash_hexColor {s : String} (h : isHexColor s) :
    replaceFirstHash s = encodeURIComponent s := by
  obtain ⟨t, hdata, hall⟩ := h
  have hunres : t.all isUnreservedChar = true := by
    rw [List.all_eq_true] at hall ⊢
    exact fun c hc => hexDigitChar_unreserved (hall c hc)
  rw [replaceFirstHash, hdata, encodeURIComponent, hdata, encodeChars,
    encodeChars_unreserved t hunres]
  rfl

/-- C4: `updateKEGGUrl` on the valid pathway id `map00010` and the single
entry `{K00001, #FF0000, #FFFFFF}` produces exactly the claimed URL, and in
general (valid id, non-empty selection, whitespace-free identifiers,
`#`-hex colors) the URL is the base endpoint, the pathway id, then per entry
the percent-encoded identifier, `%09`, percent-encoded background, `,`,
percent-encoded foreground, segments joined by `/` and terminated by
`/default%3d%23FFFFFF`. -/
theorem claim4_buildUrl_grammar :
    (updateKEGGUrl { url := "", linkVisible := false } "map00010"
        [{ identifier := "K00001", backgroundColor := "#FF0000", foregroundColor := "#FFFFFF" }]).display.url
      = "https://www.kegg.jp/kegg-bin/show_pathway?map00010/K00001%09%23FF0000,%23FFFFFF/default%3d%23FFFFFF" ∧
    (∀ (prev : UrlDisplay) (pathwayValue : String) (entries : List SelectionEntry),
        isValidMapId (jsTrim pathwayValue) = true →
        entries ≠ [] →
        (∀ e ∈ entries, jsTrim e.identifier = e.identifier ∧
            isHexColor e.backgroundColor ∧ isHexColor e.foregroundColor) →
        (updateKEGGUrl prev pathwayValue entries).display.url =
          keggBase ++ jsTrim pathwayValue ++ "/" ++
            joinSep "/" (entries.map (fun e =>
              encodeURIComponent e.identifier ++ "%09" ++
                encodeURIComponent e.backgroundColor ++ "," ++
                encodeURIComponent e.foregroundColor)) ++
            "/default%3d%23FFFFFF") := by
  refine ⟨by decide, ?_⟩
  intro prev pv entries hvalid hne hform
  rw [updateKEGGUrl]
  rw [if_neg (by simp [hvalid])]
  rw [if_neg (by simp [List.isEmpty_iff, hne])]
  show buildKeggUrl (jsTrim pv) entries = _
  rw [buildKeggUrl]
  have hmap : entries.map querySegment = entries.map (fun e =>
      encodeURIComponent e.identifier ++ "%09" ++
        encodeURIComponent e.backgroundColor ++ "," ++
        encodeURIComponent e.foregroundColor) := by
    apply List.map_congr_left
    intro e he
    obtain ⟨hid, hbg, hfg⟩ := hform e he
    rw [querySegment, hid, replaceFirstHash_hexColor hbg, replaceFirstHash_hexColor hfg]
  rw [hmap]

/-- C4 witness: the general grammar applied at the concrete round-trip
input. -/
theorem claim4_buildUrl_grammar_witness :
    (updateKEGGUrl { url := "old", linkVisible := true } "map00010"
        [{ identifier := "K00001", backgroundColor := "#FF0000", foregroundColor := "#FFFFFF" }]).display.url
      = keggBase ++ jsTrim "map00010" ++ "/" ++
          joinSep "/" ([(⟨"K00001", "#FF0000", "#FFFFFF"⟩ : SelectionEntry)].map (fun e =>
            encodeURIComponent e.identifier ++ "%09" ++
              encodeURIComponent e.backgroundColor ++ "," ++
              encodeURIComponent e.foregroundColor)) ++
          "/default%3d%23FFFFFF" := by
  apply claim4_buildUrl_grammar.2
  · decide
  · decide
  · intro e he
    simp only [List.mem_singleton] at he
    subst he
    exact ⟨by decide, ⟨['F','F','0','0','0','0'], rfl, by decide⟩,
      ⟨['F','F','F','F','F','F'], rfl, by decide⟩⟩

theorem isValidMapId_eq_true_iff (s : String) :
    isValidMapId s = true ↔
      ∃ ds : List Char, s.data = 'm' :: 'a' :: 'p' :: ds ∧
        ds.length = 5 ∧ ds.all Char.isDigit = true := by
  constructor
  · intro h
    unfold isValidMapId at h
    split at h
    case h_1 rest heq =>
      simp only [Bool.and_eq_true, decide_eq_true_eq] at h
      exact ⟨rest, heq, h.1, h.2⟩
    case h_2 =>
      exact absurd h (by simp)
  · rintro ⟨ds, hd, h5, hall⟩
    unfold isValidMapId
    rw [hd]
    simp [h5, hall]

/-- C5 counterexample: the empty pathway input is rejected (it does not
match `map` + 5 digits) and the stored URL is cleared, but no error is
surfaced (`displayMessage` is guarded by `if (mapId)` at line 327), contrary
to the claim that an error is surfaced on every rejection. -/
theorem claim5_counterexample :
    isValidMapId (jsTrim "") = false ∧
    (updateKEGGUrl { url := "old", linkVisible := true } ""
        [(⟨"K00001", "#FF0000", "#FFFFFF"⟩ : SelectionEntry)]).display.url = "" ∧
    (updateKEGGUrl { url := "old", linkVisible := true } ""
        [(⟨"K00001", "#FF0000", "#FFFFFF"⟩ : SelectionEntry)]).message = none := by
  exact ⟨by decide, by decide, by decide⟩

/-- C5 amended: `updateKEGGUrl` accepts an id exactly when its trimmed form
matches the grammar `map` + 5 ASCII digits (`map00010` accepted, `map123`
rejected); on rejection the stored URL is always cleared and the link
hidden, the error message is surfaced exactly when the trimmed input is
non-empty (an empty input is rejected silently), and acceptance with a
non-empty selection publishes the assembled URL — the function is total, so
no hard failure is raised. -/
theorem claim5_setPathway_validation :
    (isValidMapId "map00010" = true ∧ isValidMapId "map123" = false) ∧
    (∀ s : String, isValidMapId s = true ↔
        ∃ ds : List Char, s.data = 'm' :: 'a' :: 'p' :: ds ∧
          ds.length = 5 ∧ ds.all Char.isDigit = true) ∧
    (∀ (prev : UrlDisplay) (pathwayValue : String) (entries : List SelectionEntry),
        isValidMapId (jsTrim pathwayValue) = false →
        (updateKEGGUrl prev pathwayValue entries).display.url = "" ∧
        (updateKEGGUrl prev pathwayValue entries).display.linkVisible = false ∧
        ((updateKEGGUrl prev pathwayValue entries).message = some invalidPathwayMsg ↔
          jsTrim pathwayValue ≠ "")) ∧
    (∀ (prev : UrlDisplay) (pathwayValue : String) (entries : List SelectionEntry),
        isValidMapId (jsTrim pathwayValue) = true →
        entries ≠ [] →
        (updateKEGGUrl prev pathwayValue entries).display.url =
          buildKeggUrl (jsTrim pathwayValue) entries ∧
        (updateKEGGUrl prev pathwayValue entries).message = none) := by
  refine ⟨⟨by decide, by decide⟩, isValidMapId_eq_true_iff, ?_, ?_⟩
  · intro prev pv entries h
    rw [updateKEGGUrl, if_pos (by simp [h])]
    refine ⟨rfl, rfl, ?_⟩
    by_cases he : jsTrim pv = ""
    · simp [he]
    · simp [he]
  · intro prev pv entries hvalid hne
    rw [updateKEGGUrl, if_neg (by simp [hvalid]),
      if_neg (by simp [List.isEmpty_iff, hne])]
    exact ⟨rfl, rfl⟩

/-- C5 witness: the amended statement applied at `map123` (rejected with a
surfaced error) and `map00010` (accepted). -/
theorem claim5_setPathway_validation_witness :
    ((updateKEGGUrl { url := "old", linkVisible := true } "map123" []).display.url = "" ∧
      (updateKEGGUrl { url := "old", linkVisible := true } "map123" []).message =
        some invalidPathwayMsg) ∧
    (updateKEGGUrl { url := "", linkVisible := false } "map00010"
        [(⟨"K00002", "#FF0000", "#FFFFFF"⟩ : SelectionEntry)]).message = none := by
  have h1 := claim5_setPathway_validation.2.2.1 { url := "old", linkVisible := true } "map123" []
    (by decide)
  have h2 := claim5_setPathway_validation.2.2.2 { url := "", linkVisible := false } "map00010"
    [(⟨"K00002", "#FF0000", "#FFFFFF"⟩ : SelectionEntry)] (by decide) (by decide)
  exact ⟨⟨h1.1, h1.2.2.mpr (by decide)⟩, h2.2⟩

/-- C8 counterexample: `generateHeatmapKEGGUrl` does not percent-encode the
identifier (line 314 interpolates `k` verbatim, unlike `updateKEGGUrl`'s
`encodeURIComponent(ecNumber)`): for the identifier `"K 1"` the emitted URL
keeps the raw space while the claimed grammar (`specHeatmapUrl`) produces
`K%201`, and the two differ. -/
theorem claim8_counterexample :
    generateHeatmapKEGGUrl (processAbundance []) "map00010" ["K 1"] =
      "https://www.kegg.jp/kegg-bin/show_pathway?map00010/K 1%09%23FFFFFF/default%3d%23FFFFFF" ∧
    specHeatmapUrl (processAbundance []) "map00010" ["K 1"] =
      "https://www.kegg.jp/kegg-bin/show_pathway?map00010/K%201%09%23FFFFFF/default%3d%23FFFFFF" ∧
    decide (generateHeatmapKEGGUrl (processAbundance []) "map00010" ["K 1"] =
      specHeatmapUrl (processAbundance []) "map00010" ["K 1"]) = false := by
  exact ⟨by decide, by decide, by decide⟩

/-- C8 amended: each heatmap segment is the identifier inserted verbatim,
`%09`, then the percent-encoded `colorFor` color — one color component, no
comma-joined foreground — joined by `/` and terminated by
`/default%3d%23FFFFFF`; for identifiers made of unreserved URI characters
(the K-number alphabet) the verbatim identifier coincides with its
percent-encoding, so the claimed grammar holds exactly then. -/
theorem claim8_heatmapUrl_grammar :
    (∀ (abun : AbunMap) (mapId : String) (kNumbers : List String),
        generateHeatmapKEGGUrl abun mapId kNumbers =
          keggBase ++ mapId ++ "/" ++
            joinSep "/" (kNumbers.map (fun k =>
              k ++ "%09" ++ encodeURIComponent (getHeatmapColor abun k))) ++
            "/default%3d%23FFFFFF") ∧
    (∀ (abun : AbunMap) (mapId : String) (kNumbers : List String),
        (∀ k ∈ kNumbers, k.data.all isUnreservedChar = true) →
        generateHeatmapKEGGUrl abun mapId kNumbers = specHeatmapUrl abun mapId kNumbers) := by
  refine ⟨fun abun mapId kNumbers => rfl, ?_⟩
  intro abun mapId kNumbers h
  rw [generateHeatmapKEGGUrl, specHeatmapUrl]
  have hmap : kNumbers.map (fun k => k ++ "%09" ++ encodeURIComponent (getHeatmapColor abun k)) =
      kNumbers.map (fun k => encodeURIComponent k ++ "%09" ++ encodeURIComponent (getHeatmapColor abun k)) := by
    apply List.map_congr_left
    intro k hk
    rw [encodeURIComponent_unreserved (h k hk)]
  rw [hmap]

/-- C8 witness: the coincidence of the two grammars at the unreserved
identifier `K00001`. -/
theorem claim8_heatmapUrl_grammar_witness :
    generateHeatmapKEGGUrl (processAbundance []) "map00010" ["K00001"] =
      specHeatmapUrl (processAbundance []) "map00010" ["K00001"] :=
  claim8_heatmapUrl_grammar.2 (processAbundance []) "map00010" ["K00001"]
    (by intro k hk; simp only [List.mem_singleton] at hk; subst hk; decide)

/-- C10 counterexample: the array node `[{"": 5}]` contains an entry with a
non-string value, yet the build does not throw: the `&&` in the filter
predicate short-circuits on the blank trimmed key, so `v.trim()` is never
reached, the entry is filtered out, and the node is pruned to `null`. -/
theorem claim10_counterexample :
    createNode (processAbundance []) "P" (.arr [[("", .gother)]]) = .ok none ∧
    (createNode (processAbundance []) "P" (.arr [[("", .gother)]])).isOk = true := by
  constructor
  · simp +decide [createNode]
    rfl
  · simp +decide [createNode]

/-- C10 amended: calling `.trim()` on a non-string value does throw
`TypeError` whenever it is actually reached: an array node whose first entry
starts with a pair of a non-blank trimmed key and a non-string value throws
during the filter scan, and a surviving entry whose later pair carries a
non-string value throws in the gene loop — but a non-string value guarded by
a blank key in an entry with no valid pair is skipped, so totality fails
only on reached non-string values. -/
theorem claim10_trim_throws :
    (∀ (abun : AbunMap) (key k : String) (ps : List (String × GeneVal))
        (rest : List (List (String × GeneVal))),
        jsTrim key ≠ "" → jsTrim k ≠ "" →
        createNode abun key (.arr (((k, .gother) :: ps) :: rest)) = .error .typeError) ∧
    createNode (processAbundance []) "P" (.arr [[("a", .gstr "x"), ("b", .gother)]]) =
      .error .typeError := by
  constructor
  · intro abun key k ps rest hkey hk
    have h1 : geneEntrySomeM ((k, GeneVal.gother) :: ps) = .error .typeError := by
      rw [geneEntrySomeM, if_pos (by simpa using hk)]
      rfl
    have h2 : entryPredM ((k, GeneVal.gother) :: ps) = .error .typeError := by
      rw [entryPredM, if_neg (by simp), h1]
    have h3 : filterEntriesM (((k, GeneVal.gother) :: ps) :: rest) = .error .typeError := by
      rw [filterEntriesM, h2]
      rfl
    simp only [createNode]
    rw [if_neg hkey, h3]
    rfl
  · simp +decide [createNode]
    rfl

/-- C10 witness: the general throw statement at a concrete array node with a
reached non-string value. -/
theorem claim10_trim_throws_witness :
    createNode (processAbundance []) "Q" (.arr [[("K9", .gother)]]) = .error .typeError :=
  claim10_trim_throws.1 (processAbundance []) "Q" "K9" [] [] (by decide) (by decide)

theorem goodList_append : ∀ (a b : List TreeNode), goodList (a ++ b) = (goodList a && goodList b) := by
  intro a b
  induction a with
  | nil => simp [goodList]
  | cons n rest ih =>
      simp only [List.cons_append, goodList]
      have hx : rest.append b = rest ++ b := rfl
      rw [hx, ih, Bool.and_assoc]

theorem geneRowM_good (abun : AbunMap) :
    ∀ (e : List (String × GeneVal)) (gs : List TreeNode),
      geneRowM abun e = .ok gs → goodList gs = true := by
  intro e
  induction e with
  | nil =>
      intro gs h
      rw [show geneRowM abun [] = .ok [] from rfl] at h
      cases h
      rfl
  | cons p rest ih =>
      obtain ⟨k, v⟩ := p
      intro gs h
      cases v with
      | gother =>
          rw [show geneRowM abun ((k, GeneVal.gother) :: rest) = .error .typeError from rfl] at h
          cases h
      | gstr s =>
          have hred : geneRowM abun ((k, GeneVal.gstr s) :: rest) =
              if jsTrim s = "" then geneRowM abun rest
              else match createGeneNode abun k s with
                | some g => do
                    let more ← geneRowM abun rest
                    .ok (g :: more)
                | none => geneRowM abun rest := rfl
          rw [hred] at h
          by_cases hs : jsTrim s = ""
          · rw [if_pos hs] at h
            exact ih gs h
          · rw [if_neg hs] at h
            have hg : createGeneNode abun k s =
                some (.gene k (jsTrim s)
                  (if optTruthy (jsLookup abun k) then getHeatmapColor abun k else "#FFFFFF")) := by
              rw [createGeneNode]
              rw [if_neg hs]
            rw [hg] at h
            cases hr : geneRowM abun rest with
            | error e => rw [hr] at h; cases h
            | ok more =>
                rw [hr] at h
                have : gs = .gene k (jsTrim s)
                    (if optTruthy (jsLookup abun k) then getHeatmapColor abun k else "#FFFFFF")
                    :: more := by
                  cases h
                  rfl
                subst this
                simp only [goodList, goodNode, Bool.and_eq_true, decide_eq_true_eq]
                exact ⟨hs, ih more hr⟩

theorem genesOfM_good (abun : AbunMap) :
    ∀ (elems : List (List (String × GeneVal))) (gs : List TreeNode),
      genesOfM abun elems = .ok gs → goodList gs = true := by
  intro elems
  induction elems with
  | nil =>
      intro gs h
      rw [show genesOfM abun [] = .ok [] from rfl] at h
      cases h
      rfl
  | cons entry rest ih =>
      intro gs h
      have hred : genesOfM abun (entry :: rest) = (do
          let g ← geneRowM abun entry
          let more ← genesOfM abun rest
          Except.ok (g ++ more)) := rfl
      rw [hred] at h
      cases he : geneRowM abun entry with
      | error e => rw [he] at h; cases h
      | ok g =>
          rw [he] at h
          cases hr : genesOfM abun rest with
          | error e => rw [hr] at h; cases h
          | ok more =>
              rw [hr] at h
              have : gs = g ++ more := by cases h; rfl
              subst this
              rw [goodList_append, geneRowM_good abun entry g he, ih more hr]
              rfl

theorem exbind_ok {ε α β : Type} (a : α) (f : α → Except ε β) :
    (Bind.bind (Except.ok a) f) = f a := rfl

theorem exbind_err {ε α β : Type} (e : ε) (f : α → Except ε β) :
    (Bind.bind (Except.error e : Except ε α) f) = Except.error e := rfl

theorem createNode_good (abun : AbunMap) :
    ∀ (key : String) (value : RawVal) (n : TreeNode),
      createNode abun key value = .ok (some n) → goodNode n = true := by
  have main := createNode.induct abun
    (fun key value => ∀ n, createNode abun key value = .ok (some n) → goodNode n = true)
    (fun l => ∀ cs, createChildren abun l = .ok cs → goodList cs = true)
  refine fun key value n h => main ?_ ?_ ?_ ?_ ?_ ?_ ?_ ?_ ?_ ?_ key value n h
  · intro key value cleanedKey hk n h
    cases value <;>
      (simp only [createNode] at h
       rw [if_pos hk] at h
       exact absurd h (by simp))
  · intro key cleanedKey hk es entries hempty n h
    simp only [createNode] at h
    rw [if_neg hk, if_pos hempty] at h
    exact absurd h (by simp)
  · intro key cleanedKey hk es entries hne ih2 n h
    simp only [createNode] at h
    rw [if_neg hk, if_neg hne] at h
    cases hc : createChildren abun entries with
    | error e =>
        rw [hc, exbind_err] at h
        exact Except.noConfusion h
    | ok cs =>
        rw [hc, exbind_ok] at h
        have hn : n = TreeNode.category cleanedKey cs :=
          (Option.some.inj (Except.ok.inj h)).symm
        subst hn
        simp only [goodNode, Bool.and_eq_true, decide_eq_true_eq]
        exact ⟨hk, ih2 cs hc⟩
  · intro key cleanedKey hk elems n h
    simp only [createNode] at h
    rw [if_neg hk] at h
    cases hf : filterEntriesM elems with
    | error e =>
        rw [hf, exbind_err] at h
        exact Except.noConfusion h
    | ok fv =>
        rw [hf, exbind_ok] at h
        by_cases hfe : fv.isEmpty
        · rw [if_pos hfe] at h
          exact absurd h (by simp)
        · rw [if_neg hfe] at h
          cases hg : genesOfM abun fv with
          | error e =>
              rw [hg, exbind_err] at h
              exact Except.noConfusion h
          | ok gs =>
              rw [hg, exbind_ok] at h
              have hn : n = TreeNode.pathway cleanedKey
                  ((findPathKo cleanedKey.data).map (fun d => "map" ++ d)) gs :=
                (Option.some.inj (Except.ok.inj h)).symm
              subst hn
              simp only [goodNode, Bool.and_eq_true, decide_eq_true_eq]
              exact ⟨hk, genesOfM_good abun fv gs hg⟩
  · intro key cleanedKey hk s cleanedValue hv n h
    simp only [createNode] at h
    rw [if_neg hk, if_pos hv] at h
    exact absurd h (by simp)
  · intro key cleanedKey hk s cleanedValue hv n h
    simp only [createNode] at h
    rw [if_neg hk, if_neg hv] at h
    have hn : n = TreeNode.leaf cleanedKey cleanedValue :=
      (Option.some.inj (Except.ok.inj h)).symm
    subst hn
    simp only [goodNode, Bool.and_eq_true, decide_eq_true_eq]
    exact ⟨hk, hv⟩
  · intro key cleanedKey hk s cleanedValue hv n h
    simp only [createNode] at h
    rw [if_neg hk, if_pos hv] at h
    exact absurd h (by simp)
  · intro key cleanedKey hk s cleanedValue hv n h
    simp only [createNode] at h
    rw [if_neg hk, if_neg hv] at h
    have hn : n = TreeNode.leaf cleanedKey cleanedValue :=
      (Option.some.inj (Except.ok.inj h)).symm
    subst hn
    simp only [goodNode, Bool.and_eq_true, decide_eq_true_eq]
    exact ⟨hk, hv⟩
  · intro cs h
    simp only [createChildren] at h
    have : cs = [] := (Except.ok.inj h).symm
    subst this
    rfl
  · intro k v rest ih1 ih2 cs h
    simp only [createChildren] at h
    cases hc : createNode abun k v with
    | error e =>
        rw [hc, exbind_err] at h
        exact Except.noConfusion h
    | ok c =>
        rw [hc, exbind_ok] at h
        cases hr : createChildren abun rest with
        | error e =>
            rw [hr, exbind_err] at h
            exact Except.noConfusion h
        | ok cs2 =>
            rw [hr, exbind_ok] at h
            cases c with
            | some nd =>
                have : cs = nd :: cs2 := (Except.ok.inj h).symm
                subst this
                simp only [goodList, Bool.and_eq_true]
                exact ⟨ih1 nd hc, ih2 cs2 hr⟩
            | none =>
                have : cs = cs2 := (Except.ok.inj h).symm
                subst this
                exact ih2 _ hr

/-- C1 counterexample: for the input `{"A": {"B": "   "}}` the tree builder
does not produce an empty forest — the leaf `B` prunes to null, but the
Category node `A` is still emitted with an empty child sequence, because the
`entries.length === 0` test (line 176) runs before recursion, never after. -/
theorem claim1_counterexample :
    renderJSON (processAbundance []) [("A", .obj [("B", .str "   ")])] =
      .ok [.category "A" []] ∧
    ([TreeNode.category "A" []] : List TreeNode).length = 1 := by
  constructor
  · simp +decide [renderJSON, createChildren, createNode]
    rfl
  · rfl

/-- C1 amended: every emitted node (and each of its descendants) has
non-empty trimmed displayable content, but Category pruning is only
pre-recursion: a Category node is pruned exactly when its key trims empty or
its entry list filtered to non-blank keys is empty before recursion;
children that prune to null during recursion are dropped without pruning
the parent, so `{"A": {"B": "   "}}` renders as a forest holding one
childless Category node rather than an empty forest. -/
theorem claim1_pruning :
    (∀ (abun : AbunMap) (key : String) (value : RawVal) (n : TreeNode),
        createNode abun key value = .ok (some n) → goodNode n = true) ∧
    (∀ (abun : AbunMap) (key : String) (es : List (String × RawVal)),
        createNode abun key (.obj es) = .ok none ↔
          (jsTrim key = "" ∨ es.filter (fun p => decide (jsTrim p.1 ≠ "")) = [])) ∧
    renderJSON (processAbundance []) [("A", .obj [("B", .str "   ")])] =
      .ok [.category "A" []] := by
  refine ⟨createNode_good, ?_, ?_⟩
  · intro abun key es
    constructor
    · intro h
      by_cases hk : jsTrim key = ""
      · exact Or.inl hk
      · right
        by_cases he : (es.filter (fun p => decide (jsTrim p.1 ≠ ""))).isEmpty
        · exact List.isEmpty_iff.mp he
        · exfalso
          simp only [createNode] at h
          rw [if_neg hk, if_neg he] at h
          cases hc : createChildren abun (es.filter (fun p => decide (jsTrim p.1 ≠ ""))) with
          | error e =>
              rw [hc, exbind_err] at h
              exact Except.noConfusion h
          | ok cs =>
              rw [hc, exbind_ok] at h
              exact absurd h (by simp)
    · intro h
      rcases h with hk | he
      · simp only [createNode]
        rw [if_pos hk]
      · by_cases hk : jsTrim key = ""
        · simp only [createNode]
          rw [if_pos hk]
        · simp only [createNode]
          rw [if_neg hk, if_pos (by rw [he]; rfl)]
  · simp +decide [renderJSON, createChildren, createNode]
    rfl

/-- C1 witness: the goodness invariant at a concrete build, and the pruning
characterization at a Category whose only entry carries a blank key. -/
theorem claim1_pruning_witness :
    goodNode (.category "A" [.leaf "B" "x"]) = true ∧
    createNode (processAbundance []) "A2" (.obj [("  ", .str "y")]) = .ok none := by
  constructor
  · exact claim1_pruning.1 (processAbundance []) "A" (.obj [("B", .str "x")])
      (.category "A" [.leaf "B" "x"])
      (by simp +decide [createNode, createChildren]; rfl)
  · exact (claim1_pruning.2.1 (processAbundance []) "A2" [("  ", .str "y")]).mpr
      (Or.inr rfl)
